import Mathlib

/-!
Verification development for the Calico charm BGP/IP-pool reconciliation core
(src/src/charm.py and src/reactive/calico.py).

The Python code is shallowly embedded as executable Lean definitions:

* Python strings are Lean `String`s, but every string operation used by the
  charm (`str.replace` with one-character arguments, `str.split`,
  `str.split(',')`, `str.strip`, `str.startswith`, substring containment) is
  implemented here over the character list `String.data`, mirroring Python
  semantics, so that every definition evaluates inside the kernel.
* `ipaddress.ip_address` / `ipaddress.ip_network` values are modelled as
  structures carrying the IP version, the numeric address and the prefix
  length; a raw configuration value that the Python library would fail to
  parse is modelled as `none` (parsing itself is external library code).
* YAML-typed configuration values (`unit-as-numbers`, `subnet-as-numbers`,
  peer lists) are modelled post-`yaml.safe_load` as association lists, which
  preserve the insertion order that Python dicts guarantee.
* the Calico datastore reached through calicoctl is modelled as an explicit
  `Store`; `calicoctl apply` is an upsert keyed by resource name,
  `calicoctl delete` removes by name, and each reconciler returns the
  sequence of apply/delete calls it issues together with the resulting store.
-/

/-- Model of a parsed `ipaddress.ip_address` value: IP version (4 or 6) and
the numeric address. -/
structure IPAddr where
  version : Nat
  addr : Nat
deriving DecidableEq, Repr

/-- Model of a parsed `ipaddress.ip_network` value: IP version, numeric
network address and prefix length. -/
structure IPNet where
  version : Nat
  addr : Nat
  prefixlen : Nat
deriving DecidableEq, Repr

/-- Total bit width of the address family (32 for IPv4, 128 for IPv6). -/
def IPNet.bits (n : IPNet) : Nat :=
  if n.version = 4 then 32 else 128

/-- Model of Python `address in network`: false across address families,
otherwise compare the addresses truncated to the network prefix. -/
def IPNet.containsAddr (n : IPNet) (a : IPAddr) : Bool :=
  decide (a.version = n.version) &&
    decide (a.addr / 2 ^ (n.bits - n.prefixlen) = n.addr / 2 ^ (n.bits - n.prefixlen))

/-- Model of Python `str.replace(old, new)` for one-character `old`/`new`,
the only form the charm uses. -/
def py_replace_char (old new : Char) (s : String) : String :=
  String.mk (s.data.map (fun ch => if ch = old then new else ch))

/-- Model of Python `str.startswith(pre)`. -/
def py_startswith (s pre : String) : Bool :=
  List.isPrefixOf pre.data s.data

/-- Model of Python `str.split()` (split on whitespace runs, dropping empty
tokens). -/
def py_split_ws (s : String) : List String :=
  ((List.splitOnP (fun ch => ch.isWhitespace) s.data).filter
    (fun t => !t.isEmpty)).map String.mk

/-- Model of Python `str.split(',')` (empty tokens are kept). -/
def py_split_comma (s : String) : List String :=
  (List.splitOn ',' s.data).map String.mk

/-- Model of Python `str.strip()`. -/
def py_strip (s : String) : String :=
  String.mk (((s.data.dropWhile Char.isWhitespace).reverse.dropWhile
    Char.isWhitespace).reverse)

/-- Helper for substring containment over character lists. -/
def py_contains_aux (sub : List Char) : List Char → Bool
  | [] => sub.isEmpty
  | ch :: t => List.isPrefixOf sub (ch :: t) || py_contains_aux sub t

/-- Model of Python `sub in s` on strings. -/
def py_contains (s sub : String) : Bool :=
  py_contains_aux sub.data s.data

/-- Association-list lookup keyed by an integer unit ID, modelling a Python
dict lookup. -/
def lookupNat {α : Type} (k : Nat) (m : List (Nat × α)) : Option α :=
  (m.find? (fun q => decide (q.1 = k))).map Prod.snd

/-- Association-list lookup keyed by a parsed subnet, modelling the Python
dict lookup by the canonical string form of the subnet. -/
def lookupNet {α : Type} (n : IPNet) (m : List (Option IPNet × α)) : Option α :=
  (m.find? (fun q => decide (q.1 = some n))).map Prod.snd

/-- Parse every raw CIDR key of a mapping; the first unparseable key makes
the whole comprehension raise (modelled as `none`). -/
def parse_all : List (Option IPNet) → Option (List IPNet)
  | [] => some []
  | none :: _ => none
  | some n :: t => (parse_all t).map (fun l => n :: l)

/-- Embedding of `_filter_local_subnets` (charm.py 310-317, calico.py
807-812): parse the bind address (`ipaddress.ip_address` raises on an
unparseable value, modelled by `none`), parse every CIDR key (a malformed
key raises), and keep the subnets containing the bind address, in the
iteration order of the mapping. -/
def filter_local_subnets (bind : Option IPAddr) (subnets : List (Option IPNet)) :
    Except Unit (List IPNet) :=
  match bind with
  | none => .error ()
  | some a =>
    match parse_all subnets with
    | none => .error ()
    | some nets => .ok (nets.filter (fun n => n.containsAddr a))

/-- Model of one entry of a YAML BGP peer list: `{address, as-number}`. -/
structure Peer where
  address : String
  asNumber : Int
deriving DecidableEq, Repr

/-- Charm configuration, after the `yaml.safe_load` boundary for the
YAML-typed keys. -/
structure Config where
  managePools : Bool
  cidr : String
  ipip : String
  vxlan : String
  natOutgoing : Bool
  globalAsNumber : Int
  nodeToNodeMesh : Bool
  bgpServiceClusterIPs : String
  bgpServiceExternalIPs : String
  bgpServiceLoadbalancerIPs : String
  unitAsNumbers : List (Nat × Int)
  subnetAsNumbers : List (Option IPNet × Int)
  globalBgpPeers : List Peer
  subnetBgpPeers : List (Option IPNet × List Peer)
  unitBgpPeers : List (Nat × List Peer)
deriving DecidableEq, Repr

/-- Embedding of `_get_unit_as_number` (charm.py 294-308, calico.py
784-804): a unit-scoped override wins; otherwise the matching subnets are
sorted by descending prefix length (Python `sort` with key `-prefixlen`)
and the value of the first one is returned; otherwise `None`. -/
def get_unit_as_number (cfg : Config) (unitId : Nat) (bind : Option IPAddr) :
    Except Unit (Option Int) :=
  match lookupNat unitId cfg.unitAsNumbers with
  | some v => .ok (some v)
  | none =>
    match filter_local_subnets bind (cfg.subnetAsNumbers.map Prod.fst) with
    | .error e => .error e
    | .ok subnets =>
      if subnets.isEmpty then .ok none
      else
        match subnets.mergeSort (fun a b => decide (b.prefixlen ≤ a.prefixlen)) with
        | [] => .ok none
        | s :: _ => .ok (lookupNet s cfg.subnetAsNumbers)

/-- One `{cidr: ...}` entry of a BGPConfiguration service-IP list. -/
structure CidrEntry where
  cidr : String
deriving DecidableEq, Repr

/-- Spec of the singleton default BGPConfiguration resource; `none` models a
key absent from the YAML mapping. -/
structure BGPSpec where
  asNumber : Option Int
  nodeToNodeMeshEnabled : Option Bool
  serviceClusterIPs : Option (List CidrEntry)
  serviceExternalIPs : Option (List CidrEntry)
  serviceLoadBalancerIPs : Option (List CidrEntry)
deriving DecidableEq, Repr

/-- The BGPSpec with every key absent, as in the synthesized skeleton. -/
def empty_spec : BGPSpec :=
  ⟨none, none, none, none, none⟩

/-- The default BGPConfiguration resource: metadata name plus spec. -/
structure BGPConfig where
  name : String
  spec : BGPSpec
deriving DecidableEq, Repr

/-- A Calico IPPool resource as the pool reconciler shapes it. -/
structure Pool where
  name : String
  cidr : String
  ipipMode : String
  vxlanMode : String
  natOutgoing : Bool
deriving DecidableEq, Repr

/-- Spec of a BGPPeer resource as the peer reconciler shapes it. -/
structure PeerSpec where
  node : String
  peerIP : String
  asNumber : Int
deriving DecidableEq, Repr

/-- The Calico datastore contents relevant to the reconcilers; every
resource list is keyed by resource name. -/
structure Store where
  pools : List Pool
  bgppeers : List (String × PeerSpec)
  bgpconfig : Option BGPConfig
deriving DecidableEq, Repr

/-- One calicoctl call issued by a reconciliation pass. -/
inductive Act where
  | applyPool (name cidr ipipMode vxlanMode : String) (natOutgoing : Bool)
  | deletePool (name : String)
  | applyPeer (name node peerIP : String) (asNumber : Int)
  | deletePeer (name : String)
  | applyBgpConfig (c : BGPConfig)
deriving DecidableEq, Repr

/-- Identity of the local unit, as the charm reads it from Juju. -/
structure UnitCtx where
  unitName : String
  unitId : Nat
  nodeName : String
  bind : Option IPAddr
deriving DecidableEq, Repr

/-- Result of a `calicoctl get` for a singleton resource: the resource, or a
failure carrying the captured output of the command. -/
inductive GetResult where
  | found (c : BGPConfig)
  | failed (output : String)
deriving DecidableEq, Repr

/-- The exact detection string the charm greps for in the captured output of
a failed `calicoctl get` (charm.py 239, calico.py 516). -/
def not_found_msg_in (output : String) : Bool :=
  py_contains output "resource does not exist"

/-- The skeleton BGPConfiguration the charm synthesizes when the default one
does not exist (charm.py 241-246, calico.py 518-526). -/
def bgp_skeleton : BGPConfig :=
  ⟨"default", empty_spec⟩

/-- Embedding of the fetch step of `_configure_bgp_globals`: a get failure
whose captured output contains the detection string yields the skeleton,
any other failure is re-raised. -/
def fetch_bgp_config : GetResult → Except String BGPConfig
  | .found c => .ok c
  | .failed out => if not_found_msg_in out then .ok bgp_skeleton else .error out

/-- Embedding of the spec-mutation step of `_configure_bgp_globals`
(charm.py 251-264, calico.py 530-545): set asNumber and
nodeToNodeMeshEnabled from config and overwrite the three service-IP lists
with one `{cidr: c}` entry per whitespace-separated token. -/
def update_bgp_spec (cfg : Config) (c : BGPConfig) : BGPConfig :=
  { c with spec := { c.spec with
      asNumber := some cfg.globalAsNumber
      nodeToNodeMeshEnabled := some cfg.nodeToNodeMesh
      serviceClusterIPs :=
        some ((py_split_ws cfg.bgpServiceClusterIPs).map (fun t => ⟨t⟩))
      serviceExternalIPs :=
        some ((py_split_ws cfg.bgpServiceExternalIPs).map (fun t => ⟨t⟩))
      serviceLoadBalancerIPs :=
        some ((py_split_ws cfg.bgpServiceLoadbalancerIPs).map (fun t => ⟨t⟩)) } }

/-- The fetch-then-mutate-then-apply pipeline of `_configure_bgp_globals`
over an explicit get result, returning the apply call and the applied
resource, or the re-raised failure. -/
def configure_bgp_globals_from (cfg : Config) (g : GetResult) :
    Except String (List Act × BGPConfig) :=
  match fetch_bgp_config g with
  | .error e => .error e
  | .ok c =>
    let updated := update_bgp_spec cfg c
    .ok ([Act.applyBgpConfig updated], updated)

/-- Embedding of `_configure_bgp_globals` (charm.py 233-270) against the
store: an absent default BGPConfiguration makes calicoctl report the
not-found message, which `fetch_bgp_config` turns into the skeleton, so the
store-level pass always mutates and applies one resource. -/
def configure_bgp_globals (cfg : Config) (s : Store) : List Act × Store :=
  let bgp_config := match s.bgpconfig with
    | some c => c
    | none => bgp_skeleton
  let updated := update_bgp_spec cfg bgp_config
  ([Act.applyBgpConfig updated], { s with bgpconfig := some updated })

/-- IP version of a CIDR string, as `ipaddress.ip_interface(...).network`
determines it: any IPv6 literal contains a colon, an IPv4 one does not. -/
def cidr_version (c : String) : Nat :=
  if c.data.any (fun ch => decide (ch = ':')) then 6 else 4

/-- The configured CIDR list: `config["cidr"]` split on commas, each token
stripped (charm.py 425). -/
def pool_cidrs (cfg : Config) : List String :=
  (py_split_comma cfg.cidr).map py_strip

/-- The canonical pool name derived from a CIDR (charm.py 426). -/
def pool_name_of (c : String) : String :=
  "ipv" ++ toString (cidr_version c)

/-- The expected pool names, one per configured CIDR. -/
def pool_names (cfg : Config) : List String :=
  (pool_cidrs cfg).map pool_name_of

/-- Embedding of the staleness filter of `_configure_calico_pool`
(charm.py 427-431): names of the existing pools whose name is not an
expected name or whose CIDR is not a configured CIDR. -/
def pools_to_delete (names cidrs : List String) (pools : List Pool) : List String :=
  (pools.filter (fun p =>
    !(names.any (fun n => decide (n = p.name))) ||
    !(cidrs.any (fun c => decide (c = p.cidr))))).map Pool.name

/-- Store semantics of `calicoctl apply` for an IPPool: upsert keyed by
resource name. -/
def upsert_pool (pools : List Pool) (p : Pool) : List Pool :=
  if pools.any (fun q => decide (q.name = p.name)) then
    pools.map (fun q => if q.name = p.name then p else q)
  else
    pools ++ [p]

/-- Lookup of a pool by resource name in the store. -/
def find_pool (name : String) (pools : List Pool) : Option Pool :=
  pools.find? (fun q => decide (q.name = name))

/-- Embedding of `_configure_calico_pool` (charm.py 415-455): no-op when
manage-pools is falsy; otherwise delete the stale pools, then apply one
pool per configured CIDR in list order. -/
def configure_calico_pool (cfg : Config) (s : Store) : List Act × Store :=
  if cfg.managePools = false then ([], s)
  else
    let cidrs := pool_cidrs cfg
    let names := pool_names cfg
    let toDel := pools_to_delete names cidrs s.pools
    let s1 : Store :=
      { s with pools := s.pools.filter (fun p => !(toDel.any (fun n => decide (n = p.name)))) }
    let desired := cidrs.zip names
    let newPools :=
      desired.foldl
        (fun ps q => upsert_pool ps ⟨q.2, q.1, cfg.ipip, cfg.vxlan, cfg.natOutgoing⟩)
        s1.pools
    let s2 : Store := { s1 with pools := newPools }
    (toDel.map Act.deletePool ++
      desired.map (fun q => Act.applyPool q.2 q.1 cfg.ipip cfg.vxlan cfg.natOutgoing),
     s2)

/-- Sanitized unit name: `self.unit.name.replace("/", "-")` (charm.py 339). -/
def safe_unit_name (u : String) : String :=
  py_replace_char '/' '-' u

/-- Deterministic BGPPeer resource name
(charm.py 341): sanitized unit name, hyphen, peer address with every colon
replaced by a hyphen, hyphen, AS number. -/
def peer_name (safeName : String) (p : Peer) : String :=
  safeName ++ "-" ++ py_replace_char ':' '-' p.address ++ "-" ++ toString p.asNumber

/-- Python dict insert semantics for the named-peer comprehension: a
duplicate key keeps its position and takes the new value, a fresh key is
appended. -/
def update_assoc (m : List (String × Peer)) (k : String) (v : Peer) :
    List (String × Peer) :=
  if m.any (fun q => decide (q.1 = k)) then
    m.map (fun q => if q.1 = k then (k, v) else q)
  else
    m ++ [(k, v)]

/-- Embedding of the named-peer dict comprehension (charm.py 340-343):
peers keyed by their generated name, in insertion order, last duplicate
winning. -/
def named_peers (safeName : String) (peers : List Peer) : List (String × Peer) :=
  peers.foldl (fun m p => update_assoc m (peer_name safeName p) p) []

/-- Embedding of the desired-peer merge of `_configure_bgp_peers`
(charm.py 326-337): global peers, then the peer lists of every subnet
containing the bind address in match order, then the unit-scoped list. -/
def build_peers (cfg : Config) (u : UnitCtx) : Except Unit (List Peer) :=
  match filter_local_subnets u.bind (cfg.subnetBgpPeers.map Prod.fst) with
  | .error e => .error e
  | .ok subnets =>
    let globalPeers := cfg.globalBgpPeers
    let subnetPeers := subnets.flatMap (fun n => (lookupNet n cfg.subnetBgpPeers).getD [])
    let unitPeers := (lookupNat u.unitId cfg.unitBgpPeers).getD []
    .ok (globalPeers ++ subnetPeers ++ unitPeers)

/-- Store semantics of `calicoctl apply` for a BGPPeer: upsert keyed by
resource name. -/
def upsert_peer (s : Store) (n : String) (ps : PeerSpec) : Store :=
  if s.bgppeers.any (fun q => decide (q.1 = n)) then
    { s with bgppeers := s.bgppeers.map (fun q => if q.1 = n then (n, ps) else q) }
  else
    { s with bgppeers := s.bgppeers ++ [(n, ps)] }

/-- Store semantics of `calicoctl delete bgppeer`. -/
def remove_peer (s : Store) (n : String) : Store :=
  { s with bgppeers := s.bgppeers.filter (fun q => decide (q.1 ≠ n)) }

/-- The apply phase of `_configure_bgp_peers` (charm.py 347-360): upsert
each named peer in order. -/
def apply_peers_store (node : String) (named : List (String × Peer)) (s : Store) : Store :=
  named.foldl (fun st q => upsert_peer st q.1 ⟨node, q.2.address, q.2.asNumber⟩) s

/-- Embedding of the deletion filter of `_configure_bgp_peers`
(charm.py 365-369): existing peer names that start with the sanitized unit
name plus a hyphen and are not keys of the desired named-peer map. -/
def peers_to_delete (safeName : String) (named : List (String × Peer))
    (existing : List String) : List String :=
  existing.filter (fun p =>
    py_startswith p (safeName ++ "-") && !(named.any (fun q => decide (q.1 = p))))

/-- Embedding of `_configure_bgp_peers` (charm.py 323-376): merge the three
peer scopes, name them, apply each named peer, then list the existing peers
and delete the owned, no-longer-desired ones. -/
def configure_bgp_peers (cfg : Config) (u : UnitCtx) (s : Store) :
    Except Unit (List Act × Store) :=
  match build_peers cfg u with
  | .error e => .error e
  | .ok peers =>
    let safeName := safe_unit_name u.unitName
    let named := named_peers safeName peers
    let applyActs := named.map (fun q => Act.applyPeer q.1 u.nodeName q.2.address q.2.asNumber)
    let s1 := apply_peers_store u.nodeName named s
    let existing := s1.bgppeers.map Prod.fst
    let toDel := peers_to_delete safeName named existing
    let s2 := toDel.foldl remove_peer s1
    .ok (applyActs ++ toDel.map Act.deletePeer, s2)

/-- Outcome of one run of the `_configure_calico` step sequence
(charm.py 107-117): every step succeeded, or the first failure was a YAML
parse error, a calicoctl non-zero exit, or a calicoctl timeout. -/
inductive PassOutcome where
  | success
  | yamlError
  | commandError
  | timeoutError
deriving DecidableEq, Repr

/-- Effect of `_configure_calico` on `stored.calico_configured`
(charm.py 107-117): success stores true; a YAMLError stores false before
re-raising; a CalledProcessError or TimeoutExpired propagates out of the
method (and past the handlers in `_on_config_changed`, charm.py 95-99)
without touching the stored flag. -/
def configure_calico_flag (prev : Bool) : PassOutcome → Bool
  | .success => true
  | .yamlError => false
  | .commandError => prev
  | .timeoutError => prev

/-- Concrete network 10.0.0.0/8. -/
def netA8 : IPNet :=
  ⟨4, 167772160, 8⟩

/-- Concrete network 10.0.0.0/24. -/
def netA24 : IPNet :=
  ⟨4, 167772160, 24⟩

/-- Concrete address 10.0.0.1. -/
def addrA : IPAddr :=
  ⟨4, 167772161⟩

/-- A concrete configuration with a single managed IPv4 pool and no BGP
peers or overrides. -/
def cfgA : Config :=
  { managePools := true, cidr := "10.0.0.0/24", ipip := "Never", vxlan := "Never",
    natOutgoing := true, globalAsNumber := 64512, nodeToNodeMesh := true,
    bgpServiceClusterIPs := "", bgpServiceExternalIPs := "",
    bgpServiceLoadbalancerIPs := "", unitAsNumbers := [], subnetAsNumbers := [],
    globalBgpPeers := [], subnetBgpPeers := [], unitBgpPeers := [] }

/-- A store already converged to `cfgA`: the reconcilers leave it
unchanged. -/
def sA : Store :=
  { pools := [⟨"ipv4", "10.0.0.0/24", "Never", "Never", true⟩],
    bgppeers := [],
    bgpconfig := some (update_bgp_spec cfgA bgp_skeleton) }

/-- cfgA with the three service-IP values set to the empty string. -/
def cfgEmptyIPs : Config :=
  cfgA

/-- A previously fetched BGPConfiguration that still advertises a service
cluster IP range. -/
def prevBgp : BGPConfig :=
  ⟨"default", ⟨some 65100, some false, some [⟨"10.9.0.0/16"⟩], some [⟨"10.8.0.0/16"⟩],
    some [⟨"10.7.0.0/16"⟩]⟩⟩

/-- An empty store. -/
def storeEmpty : Store :=
  ⟨[], [], none⟩

/-- A configuration with no peers of any scope, for exercising the peer
deletion pass alone. -/
def cfgC : Config :=
  cfgA

/-- The local unit calico/0 used in the peer-ownership example. -/
def uC : UnitCtx :=
  ⟨"calico/0", 0, "node-0", some addrA⟩

/-- A store holding one peer owned by another unit and one stale peer owned
by calico/0. -/
def sC : Store :=
  { pools := [],
    bgppeers := [("otherunit-10.0.0.9-65001", ⟨"node-9", "10.0.0.9", 65001⟩),
                 ("calico-0-10.0.0.9-65009", ⟨"node-0", "10.0.0.9", 65009⟩)],
    bgpconfig := none }

/-- The store left after calico/0's peer pass on `sC`: its stale peer is
gone, the foreign peer is untouched. -/
def sC2 : Store :=
  { pools := [],
    bgppeers := [("otherunit-10.0.0.9-65001", ⟨"node-9", "10.0.0.9", 65001⟩)],
    bgpconfig := none }

/-- The pool the spec example expects to survive. -/
def poolIpv4 : Pool :=
  ⟨"ipv4", "10.0.0.0/16", "Never", "Never", true⟩

/-- The rogue pool the spec example expects to be deleted. -/
def poolRogue : Pool :=
  ⟨"rogue", "1.2.3.0/24", "Never", "Never", true⟩

/-- Configuration of the pool-staleness spec example: cidr 10.0.0.0/16. -/
def cfgD : Config :=
  { cfgA with cidr := "10.0.0.0/16" }

/-- Store of the pool-staleness spec example. -/
def sD : Store :=
  { pools := [poolIpv4, poolRogue], bgppeers := [], bgpconfig := none }

/-- Configuration listing two IPv4 CIDRs, for the same-family collision
example. -/
def cfgE : Config :=
  { cfgA with cidr := "10.0.0.0/24, 10.1.0.0/16" }

/-- Store holding a pool carrying the first of the two same-family CIDRs. -/
def sE : Store :=
  { pools := [⟨"ipv4", "10.0.0.0/24", "Never", "Never", true⟩],
    bgppeers := [], bgpconfig := none }

/-- Configuration with two nested subnet-scoped AS-number overrides and no
unit-scoped override. -/
def cfgB : Config :=
  { cfgA with subnetAsNumbers := [(some netA8, 64496), (some netA24, 64497)] }

/-- Configuration with a unit-scoped AS-number override for unit 0 on top
of the subnet overrides of `cfgB`. -/
def cfgB2 : Config :=
  { cfgB with unitAsNumbers := [(0, 64512)] }

/-- Discriminator for the apply calls issued under one pool name. -/
def is_apply_pool_named (n : String) : Act → Bool
  | Act.applyPool m _ _ _ _ => decide (m = n)
  | _ => false

/-- Dual-stack configuration whose cidr lists two IPv4 CIDRs around an IPv6
one. -/
def cfgF : Config :=
  { cfgA with cidr := "10.0.0.0/24, fd00::/64, 10.1.0.0/16" }

/-- Store holding a pool carrying the first of the two IPv4 CIDRs of
`cfgF`. -/
def sF : Store :=
  { pools := [⟨"ipv4", "10.0.0.0/24", "Never", "Never", true⟩],
    bgppeers := [], bgpconfig := none }

theorem parse_all_map_some (nets : List IPNet) : parse_all (nets.map some) = some nets := by
  induction nets with
  | nil => rfl
  | cons n t ih => simp [parse_all, ih]

theorem py_split_ws_empty : py_split_ws "" = [] := by decide

theorem mem_update_assoc {sn : String} {m : List (String × Peer)} {v : Peer} {q : String × Peer}
    (hm : ∀ r ∈ m, r.1 = peer_name sn r.2)
    (hq : q ∈ update_assoc m (peer_name sn v) v) : q.1 = peer_name sn q.2 := by
  unfold update_assoc at hq
  by_cases h : m.any (fun r => decide (r.1 = peer_name sn v)) = true
  · rw [if_pos h] at hq
    rcases List.mem_map.mp hq with ⟨r, hr, hrep⟩
    by_cases hr1 : r.1 = peer_name sn v
    · rw [if_pos hr1] at hrep
      rw [← hrep]
    · rw [if_neg hr1] at hrep
      rw [← hrep]
      exact hm r hr
  · rw [if_neg h] at hq
    rcases List.mem_append.mp hq with hq | hq
    · exact hm q hq
    · rcases List.mem_singleton.mp hq with rfl
      rfl

theorem mem_named_peers_key {sn : String} (peers : List Peer) :
    ∀ (m : List (String × Peer)), (∀ r ∈ m, r.1 = peer_name sn r.2) →
      ∀ q ∈ peers.foldl (fun m p => update_assoc m (peer_name sn p) p) m,
        q.1 = peer_name sn q.2 := by
  induction peers with
  | nil => intro m hm q hq; exact hm q hq
  | cons p t ih =>
    intro m hm q hq
    exact ih (update_assoc m (peer_name sn p) p)
      (fun r hr => mem_update_assoc hm hr) q hq

/-- C5: the generated BGPPeer resource name is the unit name with every
slash replaced by a hyphen, a hyphen, the peer address with every colon
replaced by a hyphen, a hyphen, and the AS number; every key of the desired
named-peer map has this shape, and the two spec examples (IPv4, and IPv6
with adjacent hyphens from a double colon) evaluate as stated. -/
theorem c5_peer_naming :
    (∀ (u : String) (p : Peer), peer_name (safe_unit_name u) p =
      py_replace_char '/' '-' u ++ "-" ++ py_replace_char ':' '-' p.address ++ "-" ++
        toString p.asNumber) ∧
    (∀ (sn : String) (peers : List Peer), ∀ q ∈ named_peers sn peers,
      q.1 = peer_name sn q.2) ∧
    peer_name (safe_unit_name "calico/0") ⟨"10.0.0.1", 65000⟩ = "calico-0-10.0.0.1-65000" ∧
    peer_name (safe_unit_name "calico/0") ⟨"2001:db8::1", 65000⟩ =
      "calico-0-2001-db8--1-65000" := by
  refine ⟨fun u p => rfl, ?_, by decide, by decide⟩
  intro sn peers q hq
  exact mem_named_peers_key peers [] (by intro r hr; cases hr) q hq

/-- C5 witness: the naming theorem evaluated at the spec examples and on a
concrete named-peer map. -/
theorem c5_peer_naming_witness :
    peer_name (safe_unit_name "calico/0") ⟨"10.0.0.1", 65000⟩ = "calico-0-10.0.0.1-65000" ∧
    ("calico-0-10.0.0.1-65000", (⟨"10.0.0.1", 65000⟩ : Peer)).1 =
      peer_name "calico-0" (⟨"10.0.0.1", 65000⟩ : Peer) :=
  ⟨c5_peer_naming.2.2.1,
    c5_peer_naming.2.1 "calico-0" [⟨"10.0.0.1", 65000⟩]
      ("calico-0-10.0.0.1-65000", ⟨"10.0.0.1", 65000⟩) (by decide)⟩

/-- C7 counterexample: a unit that already stored `calico_configured = true`
keeps reporting configured after a pass that fails with a calicoctl
CalledProcessError, and likewise after one that fails with a
TimeoutExpired, contradicting the claim that a failed pass leaves the flag
unset. -/
theorem c7_counterexample_flag_retained :
    configure_calico_flag true PassOutcome.commandError = true ∧
    configure_calico_flag true PassOutcome.timeoutError = true ∧
    PassOutcome.commandError ≠ PassOutcome.success ∧
    PassOutcome.timeoutError ≠ PassOutcome.success := ⟨rfl, rfl, by decide, by decide⟩

/-- C7 (amended): a failing pass never sets `calico_configured`: an unset
flag stays unset whatever the failure, a YAML parse error clears it, and a
CalledProcessError or a TimeoutExpired leaves it exactly at its previous
value. -/
theorem c7_failure_never_sets_flag (prev : Bool) (o : PassOutcome)
    (h : o ≠ PassOutcome.success) :
    configure_calico_flag false o = false ∧
    configure_calico_flag prev PassOutcome.yamlError = false ∧
    configure_calico_flag prev PassOutcome.commandError = prev ∧
    configure_calico_flag prev PassOutcome.timeoutError = prev := by
  refine ⟨?_, rfl, rfl, rfl⟩
  cases o <;> simp [configure_calico_flag] at h ⊢

/-- C7 witness: the amended flag behaviour at concrete failing outcomes,
for a unit whose flag was previously set. -/
theorem c7_failure_never_sets_flag_witness :
    configure_calico_flag false PassOutcome.timeoutError = false ∧
    configure_calico_flag true PassOutcome.yamlError = false ∧
    configure_calico_flag true PassOutcome.commandError = true ∧
    configure_calico_flag true PassOutcome.timeoutError = true :=
  c7_failure_never_sets_flag true PassOutcome.timeoutError (by decide)

/-- C9: after a BGP-globals pass, each service-IP spec field equals one
`{cidr: c}` entry per whitespace-separated token of its config value, and
an empty config value yields the empty list, overwriting whatever the
fetched resource previously held; the pass applies exactly that resource. -/
theorem c9_service_ip_overwrite (cfg : Config) (c : BGPConfig) (s : Store) :
    ((update_bgp_spec cfg c).spec.serviceClusterIPs =
        some ((py_split_ws cfg.bgpServiceClusterIPs).map (fun t => ⟨t⟩)) ∧
      (update_bgp_spec cfg c).spec.serviceExternalIPs =
        some ((py_split_ws cfg.bgpServiceExternalIPs).map (fun t => ⟨t⟩)) ∧
      (update_bgp_spec cfg c).spec.serviceLoadBalancerIPs =
        some ((py_split_ws cfg.bgpServiceLoadbalancerIPs).map (fun t => ⟨t⟩))) ∧
    (cfg.bgpServiceClusterIPs = "" →
      (update_bgp_spec cfg c).spec.serviceClusterIPs = some []) ∧
    (cfg.bgpServiceExternalIPs = "" →
      (update_bgp_spec cfg c).spec.serviceExternalIPs = some []) ∧
    (cfg.bgpServiceLoadbalancerIPs = "" →
      (update_bgp_spec cfg c).spec.serviceLoadBalancerIPs = some []) ∧
    (∀ prev : Option BGPConfig,
      (configure_bgp_globals cfg { s with bgpconfig := prev }).1 =
        [Act.applyBgpConfig (update_bgp_spec cfg (prev.getD bgp_skeleton))]) := by
  refine ⟨⟨rfl, rfl, rfl⟩, ?_, ?_, ?_, ?_⟩
  · intro h
    simp [update_bgp_spec, h, py_split_ws_empty]
  · intro h
    simp [update_bgp_spec, h, py_split_ws_empty]
  · intro h
    simp [update_bgp_spec, h, py_split_ws_empty]
  · intro prev
    cases prev <;> rfl

/-- C9 witness: concrete configuration with all three service-IP values
empty; the applied spec fields are empty lists even though the previously
fetched spec held entries. -/
theorem c9_service_ip_overwrite_witness :
    ((update_bgp_spec cfgEmptyIPs prevBgp).spec.serviceClusterIPs =
        some ((py_split_ws cfgEmptyIPs.bgpServiceClusterIPs).map (fun t => ⟨t⟩)) ∧
      (update_bgp_spec cfgEmptyIPs prevBgp).spec.serviceExternalIPs =
        some ((py_split_ws cfgEmptyIPs.bgpServiceExternalIPs).map (fun t => ⟨t⟩)) ∧
      (update_bgp_spec cfgEmptyIPs prevBgp).spec.serviceLoadBalancerIPs =
        some ((py_split_ws cfgEmptyIPs.bgpServiceLoadbalancerIPs).map (fun t => ⟨t⟩))) ∧
    (cfgEmptyIPs.bgpServiceClusterIPs = "" →
      (update_bgp_spec cfgEmptyIPs prevBgp).spec.serviceClusterIPs = some []) ∧
    (cfgEmptyIPs.bgpServiceExternalIPs = "" →
      (update_bgp_spec cfgEmptyIPs prevBgp).spec.serviceExternalIPs = some []) ∧
    (cfgEmptyIPs.bgpServiceLoadbalancerIPs = "" →
      (update_bgp_spec cfgEmptyIPs prevBgp).spec.serviceLoadBalancerIPs = some []) ∧
    (∀ prev : Option BGPConfig,
      (configure_bgp_globals cfgEmptyIPs { storeEmpty with bgpconfig := prev }).1 =
        [Act.applyBgpConfig (update_bgp_spec cfgEmptyIPs (prev.getD bgp_skeleton))]) :=
  c9_service_ip_overwrite cfgEmptyIPs prevBgp storeEmpty

/-- C8: when the get of the default BGPConfiguration fails and the captured
output contains the detection substring, the pass synthesizes the skeleton
named default with an empty spec, still sets asNumber and
nodeToNodeMeshEnabled on it and applies it; any other get failure is
re-raised. -/
theorem c8_not_found_bootstrap (cfg : Config) (out : String) :
    (not_found_msg_in out = true →
      configure_bgp_globals_from cfg (GetResult.failed out) =
        .ok ([Act.applyBgpConfig (update_bgp_spec cfg bgp_skeleton)],
          update_bgp_spec cfg bgp_skeleton) ∧
      bgp_skeleton.name = "default" ∧ bgp_skeleton.spec = empty_spec ∧
      (update_bgp_spec cfg bgp_skeleton).spec.asNumber = some cfg.globalAsNumber ∧
      (update_bgp_spec cfg bgp_skeleton).spec.nodeToNodeMeshEnabled =
        some cfg.nodeToNodeMesh) ∧
    (not_found_msg_in out = false →
      configure_bgp_globals_from cfg (GetResult.failed out) = .error out) := by
  constructor
  · intro h
    refine ⟨?_, rfl, rfl, rfl, rfl⟩
    simp [configure_bgp_globals_from, fetch_bgp_config, h]
  · intro h
    simp [configure_bgp_globals_from, fetch_bgp_config, h]

/-- C8 witness: the bootstrap at an output carrying the detection string,
and the re-raise at an unrelated failure output. -/
theorem c8_not_found_bootstrap_witness :
    (configure_bgp_globals_from cfgA (GetResult.failed "resource does not exist") =
        .ok ([Act.applyBgpConfig (update_bgp_spec cfgA bgp_skeleton)],
          update_bgp_spec cfgA bgp_skeleton) ∧
      bgp_skeleton.name = "default" ∧ bgp_skeleton.spec = empty_spec ∧
      (update_bgp_spec cfgA bgp_skeleton).spec.asNumber = some cfgA.globalAsNumber ∧
      (update_bgp_spec cfgA bgp_skeleton).spec.nodeToNodeMeshEnabled =
        some cfgA.nodeToNodeMesh) ∧
    configure_bgp_globals_from cfgA (GetResult.failed "connection refused") =
      .error "connection refused" :=
  ⟨(c8_not_found_bootstrap cfgA "resource does not exist").1 (by decide),
   (c8_not_found_bootstrap cfgA "connection refused").2 (by decide)⟩

/-- C6 counterexample: the filter raises on an unparseable bind address
even when the mapping is empty (the claim promises an empty sequence
without throwing), and it returns matching subnets in mapping order, not
most-specific-first (10.0.0.0/8 precedes 10.0.0.0/24 because the mapping
listed it first). -/
theorem c6_counterexample_filter_order :
    filter_local_subnets none [] = .error () ∧
    filter_local_subnets (some addrA) [some netA8, some netA24] = .ok [netA8, netA24] ∧
    netA8.prefixlen < netA24.prefixlen := by
  refine ⟨rfl, ?_, by decide⟩
  rfl

theorem parse_all_append_none (post : List (Option IPNet)) :
    ∀ pre : List (Option IPNet), parse_all (pre ++ none :: post) = none := by
  intro pre
  induction pre with
  | nil => rfl
  | cons k t ih =>
    cases k with
    | none => rfl
    | some n =>
      rw [List.cons_append]
      unfold parse_all
      rw [ih]
      rfl

/-- C6 (amended): the filter returns the subnets of the mapping containing
the bind address in the mapping's iteration order (callers sort by
specificity where needed); an empty mapping with a parseable bind address
yields the empty sequence; an unparseable bind address propagates a parse
error, it does not return empty; and a mapping holding a malformed CIDR key
anywhere also propagates a parse error. -/
theorem c6_local_subnet_filter (a : IPAddr) (nets : List IPNet)
    (keys pre post : List (Option IPNet)) :
    filter_local_subnets (some a) (nets.map some) =
      .ok (nets.filter (fun n => n.containsAddr a)) ∧
    filter_local_subnets (some a) [] = .ok [] ∧
    filter_local_subnets none keys = .error () ∧
    filter_local_subnets (some a) (pre ++ none :: post) = .error () := by
  refine ⟨?_, rfl, rfl, ?_⟩
  · simp [filter_local_subnets, parse_all_map_some]
  · unfold filter_local_subnets
    rw [parse_all_append_none post pre]

/-- C2: in a BGP-peer reconciliation pass, the deletes issued are exactly
the existing peers (as listed after the apply phase) whose name starts with
the sanitized unit name followed by a hyphen and that are not keys of the
desired named-peer map; a peer whose name lacks that prefix is never
deleted, whatever the desired set. -/
theorem c2_peer_deletion_ownership (cfg : Config) (u : UnitCtx) (s : Store)
    (peers : List Peer) (hb : build_peers cfg u = .ok peers) :
    ∃ tr s2, configure_bgp_peers cfg u s = .ok (tr, s2) ∧
      (∀ p, Act.deletePeer p ∈ tr ↔
        (p ∈ (apply_peers_store u.nodeName (named_peers (safe_unit_name u.unitName) peers)
            s).bgppeers.map Prod.fst ∧
          py_startswith p (safe_unit_name u.unitName ++ "-") = true ∧
          (named_peers (safe_unit_name u.unitName) peers).any
            (fun q => decide (q.1 = p)) = false)) ∧
      (∀ p, py_startswith p (safe_unit_name u.unitName ++ "-") = false →
        Act.deletePeer p ∉ tr) := by
  unfold configure_bgp_peers
  rw [hb]
  refine ⟨_, _, rfl, ?_, ?_⟩
  · intro p
    simp [peers_to_delete, List.mem_filter]
  · intro p hp
    simp [peers_to_delete, List.mem_filter, hp]

/-- C2 witness: on a store holding a foreign peer and a stale owned peer,
unit calico/0 deletes only its own stale peer; the foreign peer
otherunit-10.0.0.9-65001 is not deleted. -/
theorem c2_peer_deletion_ownership_witness :
    configure_bgp_peers cfgC uC sC =
      .ok ([Act.deletePeer "calico-0-10.0.0.9-65009"], sC2) ∧
    Act.deletePeer "otherunit-10.0.0.9-65001" ∉
      ([Act.deletePeer "calico-0-10.0.0.9-65009"] : List Act) := by
  obtain ⟨tr, s2, h1, hchar, hown⟩ := c2_peer_deletion_ownership cfgC uC sC [] (by rfl)
  have h2 : configure_bgp_peers cfgC uC sC =
      .ok ([Act.deletePeer "calico-0-10.0.0.9-65009"], sC2) := by rfl
  refine ⟨h2, ?_⟩
  have hno := hown "otherunit-10.0.0.9-65001" (by decide)
  rw [h1] at h2
  injection h2 with h3
  injection h3 with h4 h5
  rw [h4] at hno
  exact hno

theorem str_any_mem {l : List String} {x : String} :
    l.any (fun y => decide (y = x)) = true ↔ x ∈ l := by
  simp

theorem str_any_false {l : List String} {x : String} :
    l.any (fun y => decide (y = x)) = false ↔ x ∉ l := by
  rw [Bool.eq_false_iff]
  exact not_congr str_any_mem

theorem pool_trace_structure (cfg : Config) (s : Store) (hm : cfg.managePools = true) :
    (configure_calico_pool cfg s).1 =
      (pools_to_delete (pool_names cfg) (pool_cidrs cfg) s.pools).map Act.deletePool ++
        ((pool_cidrs cfg).zip (pool_names cfg)).map
          (fun q => Act.applyPool q.2 q.1 cfg.ipip cfg.vxlan cfg.natOutgoing) := by
  simp [configure_calico_pool, hm]

theorem mem_pools_to_delete {names cidrs : List String} {pools : List Pool} {n : String} :
    n ∈ pools_to_delete names cidrs pools ↔
      ∃ q ∈ pools, q.name = n ∧ (q.name ∉ names ∨ q.cidr ∉ cidrs) := by
  unfold pools_to_delete
  constructor
  · intro h
    rcases List.mem_map.mp h with ⟨q, hq, rfl⟩
    rcases List.mem_filter.mp hq with ⟨hq1, hq2⟩
    refine ⟨q, hq1, rfl, ?_⟩
    rw [Bool.or_eq_true] at hq2
    rcases hq2 with h2 | h2
    · exact Or.inl (str_any_false.mp (Bool.not_eq_true' _ ▸ h2))
    · exact Or.inr (str_any_false.mp (Bool.not_eq_true' _ ▸ h2))
  · rintro ⟨q, hq, rfl, hstale⟩
    refine List.mem_map.mpr ⟨q, List.mem_filter.mpr ⟨hq, ?_⟩, rfl⟩
    rw [Bool.or_eq_true]
    rcases hstale with h | h
    · exact Or.inl ((Bool.not_eq_true' _).symm ▸ str_any_false.mpr h)
    · exact Or.inr ((Bool.not_eq_true' _).symm ▸ str_any_false.mpr h)

theorem deletePool_mem_pool_trace (cfg : Config) (s : Store)
    (hm : cfg.managePools = true) (hnodup : (s.pools.map Pool.name).Nodup)
    {p : Pool} (hp : p ∈ s.pools) :
    Act.deletePool p.name ∈ (configure_calico_pool cfg s).1 ↔
      (p.name ∉ pool_names cfg ∨ p.cidr ∉ pool_cidrs cfg) := by
  rw [pool_trace_structure cfg s hm, List.mem_append]
  constructor
  · rintro (h | h)
    · rcases List.mem_map.mp h with ⟨n, hn, hEq⟩
      injection hEq with hinj
      subst hinj
      rcases mem_pools_to_delete.mp hn with ⟨q, hq, hqn, hstale⟩
      have hqp : q = p := List.inj_on_of_nodup_map hnodup hq hp hqn
      rw [← hqp]
      exact hstale
    · exfalso
      rcases List.mem_map.mp h with ⟨q, _, hEq⟩
      exact Act.noConfusion hEq
  · intro h
    exact Or.inl (List.mem_map.mpr
      ⟨p.name, mem_pools_to_delete.mpr ⟨p, hp, rfl, h⟩, rfl⟩)

theorem zip_self_map {α β : Type} (l : List α) (f : α → β) :
    l.zip (l.map f) = l.map (fun a => (a, f a)) := by
  induction l with
  | nil => rfl
  | cons a t ih => simp [ih]

/-- C4: with manage-pools on, the pool pass deletes exactly the existing
pools whose name is not among the expected per-family names or whose CIDR
equals no configured CIDR of its own family; a pool whose name and CIDR
both agree with a configured entry is not deleted and is re-applied. -/
theorem c4_pool_staleness (cfg : Config) (s : Store)
    (hm : cfg.managePools = true)
    (hnodup : (s.pools.map Pool.name).Nodup) :
    ∀ p ∈ s.pools,
      (Act.deletePool p.name ∈ (configure_calico_pool cfg s).1 ↔
        (p.name ∉ pool_names cfg ∨
          ∀ c ∈ pool_cidrs cfg, cidr_version c = cidr_version p.cidr → c ≠ p.cidr)) ∧
      ((∃ c ∈ pool_cidrs cfg, c = p.cidr ∧ pool_name_of c = p.name) →
        Act.deletePool p.name ∉ (configure_calico_pool cfg s).1 ∧
          Act.applyPool p.name p.cidr cfg.ipip cfg.vxlan cfg.natOutgoing ∈
            (configure_calico_pool cfg s).1) := by
  intro p hp
  have hcond : (p.cidr ∉ pool_cidrs cfg) ↔
      (∀ c ∈ pool_cidrs cfg, cidr_version c = cidr_version p.cidr → c ≠ p.cidr) := by
    constructor
    · intro hni c hc _ heq
      exact hni (heq ▸ hc)
    · intro hall hin
      exact hall p.cidr hin rfl rfl
  constructor
  · exact (deletePool_mem_pool_trace cfg s hm hnodup hp).trans (or_congr_right hcond)
  · rintro ⟨c, hc, rfl, hname⟩
    have hnm : p.name ∈ pool_names cfg := List.mem_map.mpr ⟨p.cidr, hc, hname⟩
    constructor
    · intro hmem
      rcases (deletePool_mem_pool_trace cfg s hm hnodup hp).mp hmem with h | h
      · exact h hnm
      · exact h hc
    · rw [pool_trace_structure cfg s hm]
      apply List.mem_append_right
      unfold pool_names
      rw [zip_self_map, List.map_map]
      refine List.mem_map.mpr ⟨p.cidr, hc, ?_⟩
      simp [Function.comp, hname]

/-- C4 witness: with configured cidr 10.0.0.0/16 and existing pools ipv4
(10.0.0.0/16) and rogue (1.2.3.0/24), the pass deletes rogue and re-applies
ipv4 without deleting it. -/
theorem c4_pool_staleness_witness :
    Act.deletePool "rogue" ∈ (configure_calico_pool cfgD sD).1 ∧
    Act.deletePool "ipv4" ∉ (configure_calico_pool cfgD sD).1 ∧
    Act.applyPool "ipv4" "10.0.0.0/16" "Never" "Never" true ∈
      (configure_calico_pool cfgD sD).1 := by
  have h1 := c4_pool_staleness cfgD sD rfl (by decide) poolRogue (by decide)
  have h2 := c4_pool_staleness cfgD sD rfl (by decide) poolIpv4 (by decide)
  have hkeep := h2.2 ⟨"10.0.0.0/16", by decide, rfl, by decide⟩
  exact ⟨h1.1.mpr (Or.inl (by decide)), hkeep.1, hkeep.2⟩

theorem find_replace_of_any {p : Pool} : ∀ ps : List Pool,
    ps.any (fun q => decide (q.name = p.name)) = true →
    (ps.map (fun q => if q.name = p.name then p else q)).find?
      (fun q => decide (q.name = p.name)) = some p := by
  intro ps
  induction ps with
  | nil => intro h; cases h
  | cons a t ih =>
    intro h
    by_cases ha : a.name = p.name
    · rw [List.map_cons, if_pos ha]
      exact List.find?_cons_of_pos _ (by simp)
    · rw [List.map_cons, if_neg ha]
      rw [List.find?_cons_of_neg _ (by simp [ha])]
      refine ih ?_
      rw [List.any_cons, Bool.or_eq_true] at h
      rcases h with h | h
      · exact absurd (of_decide_eq_true h) ha
      · exact h

theorem find_pool_upsert_self (ps : List Pool) (p : Pool) :
    (upsert_pool ps p).find? (fun q => decide (q.name = p.name)) = some p := by
  unfold upsert_pool
  by_cases h : ps.any (fun q => decide (q.name = p.name)) = true
  · rw [if_pos h]
    exact find_replace_of_any ps h
  · rw [if_neg h]
    rw [List.find?_append]
    have hnone : ps.find? (fun q => decide (q.name = p.name)) = none := by
      rw [List.find?_eq_none]
      intro x hx hpx
      exact h (List.any_eq_true.mpr ⟨x, hx, hpx⟩)
    rw [hnone]
    simp

theorem find_pool_foldl_upsert (n : String) : ∀ (ws ps : List Pool),
    (∀ w ∈ ws, w.name = n) → ws ≠ [] →
    (ws.foldl upsert_pool ps).find? (fun q => decide (q.name = n)) = ws.getLast? := by
  intro ws
  induction ws with
  | nil => intro ps _ hne; exact absurd rfl hne
  | cons w t ih =>
    intro ps hnames _
    rw [List.foldl_cons]
    cases t with
    | nil =>
      have hw : w.name = n := hnames w (List.mem_cons_self w [])
      rw [List.foldl_nil, List.getLast?_singleton]
      rw [← hw]
      exact find_pool_upsert_self ps w
    | cons b u =>
      rw [List.getLast?_cons_cons]
      exact ih (upsert_pool ps w) (fun x hx => hnames x (List.mem_cons_of_mem w hx))
        (List.cons_ne_nil b u)

theorem pool_name_of_eq_iff {c : String} {v : Nat} (hv46 : v = 4 ∨ v = 6) :
    (pool_name_of c = "ipv" ++ toString v) ↔ cidr_version c = v := by
  unfold pool_name_of cidr_version
  rcases hv46 with rfl | rfl <;> cases hb : (c.data.any (fun ch => decide (ch = ':'))) <;>
    decide

theorem find_map_replace_other {m : String} {p : Pool} (hne : p.name ≠ m) :
    ∀ ps : List Pool,
    (ps.map (fun q => if q.name = p.name then p else q)).find?
        (fun q => decide (q.name = m)) =
      ps.find? (fun q => decide (q.name = m)) := by
  intro ps
  induction ps with
  | nil => rfl
  | cons a t ih =>
    rw [List.map_cons]
    by_cases ha : a.name = p.name
    · rw [if_pos ha]
      rw [List.find?_cons_of_neg _ (by simp [hne]),
        List.find?_cons_of_neg _ (by simp [ha]; exact hne)]
      exact ih
    · rw [if_neg ha]
      by_cases ham : a.name = m
      · rw [List.find?_cons_of_pos _ (by simp [ham]), List.find?_cons_of_pos _ (by simp [ham])]
      · rw [List.find?_cons_of_neg _ (by simp [ham]), List.find?_cons_of_neg _ (by simp [ham])]
        exact ih

theorem find_pool_upsert_other {m : String} (ps : List Pool) (p : Pool) (hne : p.name ≠ m) :
    (upsert_pool ps p).find? (fun q => decide (q.name = m)) =
      ps.find? (fun q => decide (q.name = m)) := by
  unfold upsert_pool
  by_cases h : ps.any (fun q => decide (q.name = p.name)) = true
  · rw [if_pos h]
    exact find_map_replace_other hne ps
  · rw [if_neg h, List.find?_append]
    have hsingle : ([p].find? (fun q => decide (q.name = m))) = none := by
      rw [List.find?_cons_of_neg _ (by simp [hne])]
      rfl
    rw [hsingle, Option.or_none]

theorem find_foldl_no_write (n : String) : ∀ (ws ps : List Pool),
    (∀ x ∈ ws, x.name ≠ n) →
    (ws.foldl upsert_pool ps).find? (fun q => decide (q.name = n)) =
      ps.find? (fun q => decide (q.name = n)) := by
  intro ws
  induction ws with
  | nil => intro ps _; rfl
  | cons w t ih =>
    intro ps hno
    rw [List.foldl_cons]
    rw [ih (upsert_pool ps w) (fun x hx => hno x (List.mem_cons_of_mem w hx))]
    exact find_pool_upsert_other ps w (hno w (List.mem_cons_self w t))

theorem find_pool_foldl_upsert_general (n : String) : ∀ (ws ps : List Pool),
    (ws.filter (fun w => decide (w.name = n))) ≠ [] →
    (ws.foldl upsert_pool ps).find? (fun q => decide (q.name = n)) =
      (ws.filter (fun w => decide (w.name = n))).getLast? := by
  intro ws
  induction ws with
  | nil => intro ps h; exact absurd rfl h
  | cons w t ih =>
    intro ps hne
    rw [List.foldl_cons]
    by_cases hw : w.name = n
    · rw [List.filter_cons_of_pos (by simp [hw])]
      by_cases ht : t.filter (fun w => decide (w.name = n)) = []
      · rw [ht]
        have hnowrite : ∀ x ∈ t, x.name ≠ n := by
          intro x hx hxn
          have hxm : x ∈ t.filter (fun w => decide (w.name = n)) :=
            List.mem_filter.mpr ⟨hx, by simp [hxn]⟩
          rw [ht] at hxm
          exact List.not_mem_nil x hxm
        rw [find_foldl_no_write n t (upsert_pool ps w) hnowrite]
        rw [List.getLast?_singleton]
        rw [← hw]
        exact find_pool_upsert_self ps w
      · obtain ⟨b, u, hbu⟩ := List.exists_cons_of_ne_nil ht
        rw [hbu, List.getLast?_cons_cons, ← hbu]
        exact ih (upsert_pool ps w) ht
    · rw [List.filter_cons_of_neg (by simp [hw])] at hne ⊢
      exact ih (upsert_pool ps w) hne

/-- C10: for any configuration whose cidr list holds two or more CIDRs of
one IP family (other families may be listed as well), each CIDR of that
family derives the same pool name, the pass applies them in list order
under that single name, the pool stored under that name afterwards carries
the last listed CIDR of the family, and an existing pool under that name
carrying any listed CIDR is not deleted by the staleness check. -/
theorem c10_same_family_cidrs (cfg : Config) (s : Store) (v : Nat)
    (hm : cfg.managePools = true)
    (hv46 : v = 4 ∨ v = 6)
    (hlen : 2 ≤ ((pool_cidrs cfg).filter (fun c => decide (cidr_version c = v))).length)
    (hnodup : (s.pools.map Pool.name).Nodup) :
    (∀ c ∈ (pool_cidrs cfg).filter (fun c => decide (cidr_version c = v)),
      pool_name_of c = "ipv" ++ toString v) ∧
    ((configure_calico_pool cfg s).1.filter (is_apply_pool_named ("ipv" ++ toString v)) =
      ((pool_cidrs cfg).filter (fun c => decide (cidr_version c = v))).map
        (fun c => Act.applyPool ("ipv" ++ toString v) c cfg.ipip cfg.vxlan cfg.natOutgoing)) ∧
    find_pool ("ipv" ++ toString v) (configure_calico_pool cfg s).2.pools =
      (((pool_cidrs cfg).filter (fun c => decide (cidr_version c = v))).getLast?).map
        (fun c => (⟨"ipv" ++ toString v, c, cfg.ipip, cfg.vxlan, cfg.natOutgoing⟩ : Pool)) ∧
    (∀ p ∈ s.pools, p.name = "ipv" ++ toString v → p.cidr ∈ pool_cidrs cfg →
      Act.deletePool p.name ∉ (configure_calico_pool cfg s).1) := by
  have hname : ∀ c ∈ (pool_cidrs cfg).filter (fun c => decide (cidr_version c = v)),
      pool_name_of c = "ipv" ++ toString v := by
    intro c hc
    exact (pool_name_of_eq_iff hv46).mpr (of_decide_eq_true (List.mem_filter.mp hc).2)
  refine ⟨hname, ?_, ?_, ?_⟩
  · have hdel : ((pools_to_delete (pool_names cfg) (pool_cidrs cfg) s.pools).map
        Act.deletePool).filter (is_apply_pool_named ("ipv" ++ toString v)) = [] := by
      rw [List.filter_eq_nil_iff]
      intro a ha hcond
      rcases List.mem_map.mp ha with ⟨n, _, rfl⟩
      cases hcond
    have key : ∀ l : List String,
        ((l.map (fun c =>
            Act.applyPool (pool_name_of c) c cfg.ipip cfg.vxlan cfg.natOutgoing)).filter
          (is_apply_pool_named ("ipv" ++ toString v))) =
        (l.filter (fun c => decide (cidr_version c = v))).map
          (fun c => Act.applyPool ("ipv" ++ toString v) c cfg.ipip cfg.vxlan cfg.natOutgoing) := by
      intro l
      induction l with
      | nil => rfl
      | cons c t ih =>
        rw [List.map_cons]
        by_cases hc : cidr_version c = v
        · have hpn := (pool_name_of_eq_iff hv46).mpr hc
          rw [List.filter_cons_of_pos (by simp [is_apply_pool_named, hpn]),
            List.filter_cons_of_pos (by simp [hc]), List.map_cons, ih, hpn]
        · have hpn : ¬(pool_name_of c = "ipv" ++ toString v) :=
            fun h => hc ((pool_name_of_eq_iff hv46).mp h)
          rw [List.filter_cons_of_neg (by simp [is_apply_pool_named, hpn]),
            List.filter_cons_of_neg (by simp [hc])]
          exact ih
    rw [pool_trace_structure cfg s hm, List.filter_append, hdel, List.nil_append]
    unfold pool_names
    rw [zip_self_map, List.map_map]
    have hcomp : ((fun q => Act.applyPool q.2 q.1 cfg.ipip cfg.vxlan cfg.natOutgoing) ∘
        (fun c => (c, pool_name_of c))) =
        (fun c => Act.applyPool (pool_name_of c) c cfg.ipip cfg.vxlan cfg.natOutgoing) := rfl
    rw [hcomp]
    exact key (pool_cidrs cfg)
  · have hpools : (configure_calico_pool cfg s).2.pools =
        ((pool_cidrs cfg).map
            (fun c => (⟨pool_name_of c, c, cfg.ipip, cfg.vxlan, cfg.natOutgoing⟩ : Pool))).foldl
          upsert_pool
          (s.pools.filter (fun p =>
            !((pools_to_delete (pool_names cfg) (pool_cidrs cfg) s.pools).any
              (fun n => decide (n = p.name))))) := by
      unfold configure_calico_pool
      rw [hm]
      rw [if_neg (by decide : ¬(true = false))]
      dsimp only
      unfold pool_names
      rw [zip_self_map, List.foldl_map, List.foldl_map]
    have key2 : ∀ l : List String,
        ((l.map (fun c =>
            (⟨pool_name_of c, c, cfg.ipip, cfg.vxlan, cfg.natOutgoing⟩ : Pool))).filter
          (fun w => decide (w.name = "ipv" ++ toString v))) =
        (l.filter (fun c => decide (cidr_version c = v))).map
          (fun c => (⟨"ipv" ++ toString v, c, cfg.ipip, cfg.vxlan, cfg.natOutgoing⟩ : Pool)) := by
      intro l
      induction l with
      | nil => rfl
      | cons c t ih =>
        rw [List.map_cons]
        by_cases hc : cidr_version c = v
        · have hpn := (pool_name_of_eq_iff hv46).mpr hc
          rw [List.filter_cons_of_pos (by simp [hpn]),
            List.filter_cons_of_pos (by simp [hc]), List.map_cons, ih, hpn]
        · have hpn : ¬(pool_name_of c = "ipv" ++ toString v) :=
            fun h => hc ((pool_name_of_eq_iff hv46).mp h)
          rw [List.filter_cons_of_neg (by simp [hpn]),
            List.filter_cons_of_neg (by simp [hc])]
          exact ih
    have hne : (((pool_cidrs cfg).map
        (fun c => (⟨pool_name_of c, c, cfg.ipip, cfg.vxlan, cfg.natOutgoing⟩ : Pool))).filter
          (fun w => decide (w.name = "ipv" ++ toString v))) ≠ [] := by
      rw [key2]
      intro h
      have hlen0 := congrArg List.length h
      rw [List.length_map, List.length_nil] at hlen0
      omega
    unfold find_pool
    rw [hpools, find_pool_foldl_upsert_general _ _ _ hne, key2, List.getLast?_map]
  · intro p hp hpn hpc hmem
    have hsne : ((pool_cidrs cfg).filter (fun c => decide (cidr_version c = v))) ≠ [] := by
      intro h
      rw [h] at hlen
      exact absurd hlen (by decide)
    obtain ⟨c0, hc0⟩ := List.exists_mem_of_ne_nil _ hsne
    have hc0c : c0 ∈ pool_cidrs cfg := List.mem_of_mem_filter hc0
    have hc0v : pool_name_of c0 = "ipv" ++ toString v := hname c0 hc0
    rcases (deletePool_mem_pool_trace cfg s hm hnodup hp).mp hmem with h | h
    · exact h (List.mem_map.mpr ⟨c0, hc0c, by rw [hc0v, hpn]⟩)
    · exact h hpc

/-- C10 witness: with a dual-stack cidr listing 10.0.0.0/24, fd00::/64 and
10.1.0.0/16, the two IPv4 CIDRs both derive the name ipv4, their applies
appear in list order under that name, the stored ipv4 pool afterwards
carries 10.1.0.0/16, and the existing ipv4 pool carrying 10.0.0.0/24 is
not deleted. -/
theorem c10_same_family_cidrs_witness :
    pool_name_of "10.0.0.0/24" = "ipv4" ∧ pool_name_of "10.1.0.0/16" = "ipv4" ∧
    (configure_calico_pool cfgF sF).1.filter (is_apply_pool_named "ipv4") =
      [Act.applyPool "ipv4" "10.0.0.0/24" "Never" "Never" true,
       Act.applyPool "ipv4" "10.1.0.0/16" "Never" "Never" true] ∧
    find_pool "ipv4" (configure_calico_pool cfgF sF).2.pools =
      some ⟨"ipv4", "10.1.0.0/16", "Never", "Never", true⟩ ∧
    Act.deletePool "ipv4" ∉ (configure_calico_pool cfgF sF).1 := by
  have h := c10_same_family_cidrs cfgF sF 4 rfl (Or.inl rfl) (by decide) (by decide)
  refine ⟨h.1 "10.0.0.0/24" (by decide), h.1 "10.1.0.0/16" (by decide),
    h.2.1.trans (by rfl), h.2.2.1.trans (by rfl), ?_⟩
  exact h.2.2.2 ⟨"ipv4", "10.0.0.0/24", "Never", "Never", true⟩ (by decide) (by decide)
    (by decide)

theorem mergeSort_desc_head {l : List IPNet} {s : IPNet} (hs : s ∈ l)
    (hmax : ∀ t ∈ l, t ≠ s → t.prefixlen < s.prefixlen) :
    ∃ rest, l.mergeSort (fun a b => decide (b.prefixlen ≤ a.prefixlen)) = s :: rest := by
  have hperm := List.mergeSort_perm l (fun a b => decide (b.prefixlen ≤ a.prefixlen))
  have hsorted := @List.sorted_mergeSort IPNet
    (fun a b : IPNet => decide (b.prefixlen ≤ a.prefixlen))
    (fun a b c h1 h2 => by
      simp only [decide_eq_true_eq] at h1 h2 ⊢
      omega)
    (fun a b => by
      simp only [Bool.or_eq_true, decide_eq_true_eq]
      omega)
    l
  cases hml : l.mergeSort (fun a b => decide (b.prefixlen ≤ a.prefixlen)) with
  | nil =>
    exfalso
    rw [hml] at hperm
    rw [hperm.symm.eq_nil] at hs
    exact List.not_mem_nil s hs
  | cons hd tl =>
    rw [hml] at hperm hsorted
    have hhd : hd ∈ l := hperm.mem_iff.mp (List.mem_cons_self hd tl)
    by_cases heq : hd = s
    · exact ⟨tl, by rw [heq]⟩
    · exfalso
      have hs_in : s ∈ hd :: tl := hperm.mem_iff.mpr hs
      rcases List.mem_cons.mp hs_in with h | h
      · exact heq h.symm
      · have hle := (List.pairwise_cons.mp hsorted).1 s h
        simp only [decide_eq_true_eq] at hle
        have hlt := hmax hd hhd heq
        omega

/-- C1: the AS number computed for the node is the unit-scoped override for
the unit's integer ID when one exists; otherwise, among the
subnet-as-numbers entries whose CIDR contains the bind address, the value
of the subnet with the longest prefix; otherwise none. -/
theorem c1_as_number_selection (cfg : Config) (unitId : Nat) (a : IPAddr)
    (nets : List IPNet) (hkeys : cfg.subnetAsNumbers.map Prod.fst = nets.map some) :
    (∀ v, lookupNat unitId cfg.unitAsNumbers = some v →
      get_unit_as_number cfg unitId (some a) = .ok (some v)) ∧
    (lookupNat unitId cfg.unitAsNumbers = none →
      (nets.filter (fun n => n.containsAddr a) = [] →
        get_unit_as_number cfg unitId (some a) = .ok none) ∧
      (∀ s, s ∈ nets.filter (fun n => n.containsAddr a) →
        (∀ t ∈ nets.filter (fun n => n.containsAddr a), t ≠ s →
          t.prefixlen < s.prefixlen) →
        ∀ v, lookupNet s cfg.subnetAsNumbers = some v →
          get_unit_as_number cfg unitId (some a) = .ok (some v))) := by
  have hfls : filter_local_subnets (some a) (cfg.subnetAsNumbers.map Prod.fst) =
      .ok (nets.filter (fun n => n.containsAddr a)) := by
    rw [hkeys]
    unfold filter_local_subnets
    rw [parse_all_map_some]
  constructor
  · intro v hv
    unfold get_unit_as_number
    rw [hv]
  · intro hnone
    constructor
    · intro hempty
      unfold get_unit_as_number
      rw [hnone, hfls, hempty]
      rfl
    · intro s hs hmax v hv
      obtain ⟨rest, hrest⟩ := mergeSort_desc_head hs hmax
      have hne : (nets.filter (fun n => n.containsAddr a)).isEmpty = false := by
        rw [List.isEmpty_eq_false]
        intro h
        rw [h] at hs
        exact List.not_mem_nil s hs
      unfold get_unit_as_number
      simp only [hnone, hfls, hne, hrest, hv]
      rfl

/-- C1 witness: with overrides for 10.0.0.0/8 and 10.0.0.0/24 and bind
address 10.0.0.1, the longest-prefix subnet value 64497 wins; adding a
unit-scoped override 64512 for unit 0 overrides the subnet match. -/
theorem c1_as_number_selection_witness :
    get_unit_as_number cfgB 0 (some addrA) = .ok (some 64497) ∧
    get_unit_as_number cfgB2 0 (some addrA) = .ok (some 64512) :=
  ⟨((c1_as_number_selection cfgB 0 addrA [netA8, netA24] rfl).2 rfl).2 netA24
      (by decide) (by decide) 64497 rfl,
   (c1_as_number_selection cfgB2 0 addrA [netA8, netA24] rfl).1 64512 rfl⟩

